import Mathlib

/-!
Verification development for `mage_ai/data_preparation/models/utils.py`.

The module is embedded shallowly: Python values appearing in dataframe rows
become the inductive type `Value`, a row (`pd.Series`) becomes a total function
from column names to values, a column-type table (a Python `dict`) becomes an
association list with distinct keys, and the per-column loops of the source
become structural recursions threading the row through per-column updates.

The JSON codec (`simplejson.dumps` / `simplejson.loads`) and the YAML codec
(`yaml.dump` / `yaml.safe_load`) are external libraries that the repository's
own design document declares opaque; they are modelled abstractly but
faithfully to how the module observes them (see the doc comments on `dumps`,
`loads`, `yaml_dump`, `yaml_safe_load`).
-/

set_option maxHeartbeats 1000000

mutual

/-- A Python value as it can appear in a dataframe row processed by this
module: `None`, a `bool`, an `int`, a `str` (see `PyStr`), an opaque object
with a string representation (such as a `bson.ObjectId`), a `dict`, a `list`,
or a `numpy.ndarray`.  Nested containers are represented by the mutual types
`ValueList` and `EntryList` (floating-point payloads are outside the model). -/
inductive Value : Type where
  | vnone : Value
  | vbool : Bool → Value
  | vint : Int → Value
  | vstr : PyStr → Value
  | vobj : String → Value
  | vdict : EntryList → Value
  | vlist : ValueList → Value
  | vndarray : ValueList → Value

/-- A list of Python values (the payload of a `list` or `ndarray`). -/
inductive ValueList : Type where
  | nil : ValueList
  | cons : Value → ValueList → ValueList

/-- The entries of a Python `dict` value: ordered key/value pairs. -/
inductive EntryList : Type where
  | nil : EntryList
  | cons : String → Value → EntryList → EntryList

/-- A Python `str`.  Modelled from the spec: the JSON codec is an opaque
injective encoder, so a string is either ordinary literal text, or the text
`simplejson.dumps` produced for a JSON-representable value (`enc`, carrying
the encoded value), or the text it produced with the external fallback
encoder `encode_complex` for a value outside the JSON fragment (`encX`,
whose decoded form is not modelled). -/
inductive PyStr : Type where
  | lit : String → PyStr
  | enc : Value → PyStr
  | encX : PyStr

end

/-- `MAX_PARTITION_BYTE_SIZE = 100 * 1024 * 1024`. -/
def MAX_PARTITION_BYTE_SIZE : Nat := 100 * 1024 * 1024

/-- `JSON_SERIALIZABLE_COLUMN_TYPES = {dict.__name__, list.__name__}`
(a Python set; modelled as the list of its elements). -/
def JSON_SERIALIZABLE_COLUMN_TYPES : List String := ["dict", "list"]

/-- `STRING_SERIALIZABLE_COLUMN_TYPES = {'ObjectId'}`. -/
def STRING_SERIALIZABLE_COLUMN_TYPES : List String := ["ObjectId"]

/-- `AMBIGUOUS_COLUMN_TYPES = {'mixed-integer', 'complex', 'unknown-array'}`. -/
def AMBIGUOUS_COLUMN_TYPES : List String := ["mixed-integer", "complex", "unknown-array"]

/-- `CAST_TYPE_COLUMN_TYPES = {'Int64', 'int64', 'float64'}`. -/
def CAST_TYPE_COLUMN_TYPES : List String := ["Int64", "int64", "float64"]

/-- The polars dtype objects used as values of `POLARS_CAST_TYPE_COLUMN_TYPES`. -/
inductive PolarsType : Type where
  | Float64 : PolarsType
  | Int64 : PolarsType
deriving DecidableEq

/-- `POLARS_CAST_TYPE_COLUMN_TYPES = {'Float64': pl.Float64, 'Int64': pl.Int64}`. -/
def POLARS_CAST_TYPE_COLUMN_TYPES : List (String × PolarsType) :=
  [("Float64", PolarsType.Float64), ("Int64", PolarsType.Int64)]

mutual

/-- Whether a value lies in the pure JSON fragment (`None`, `bool`, `int`,
`str`, and `dict`/`list` thereof): exactly the values `simplejson.dumps`
encodes without falling back to the external `encode_complex` hook. -/
def jsonOk : Value → Bool
  | Value.vnone => true
  | Value.vbool _ => true
  | Value.vint _ => true
  | Value.vstr _ => true
  | Value.vobj _ => false
  | Value.vdict kvs => jsonOkEntries kvs
  | Value.vlist xs => jsonOkList xs
  | Value.vndarray _ => false

/-- `jsonOk` on every element of a value list. -/
def jsonOkList : ValueList → Bool
  | ValueList.nil => true
  | ValueList.cons v tl => jsonOk v && jsonOkList tl

/-- `jsonOk` on every value of a dict's entries. -/
def jsonOkEntries : EntryList → Bool
  | EntryList.nil => true
  | EntryList.cons _ v tl => jsonOk v && jsonOkEntries tl

end

/-- Modelled from the spec: `simplejson.dumps(val, default=encode_complex,
ignore_nan=True, use_decimal=True)`.  The design document treats the JSON
codec as an opaque external collaborator, so the produced text is modelled
abstractly: a value in the pure JSON fragment is encoded injectively
(`PyStr.enc`), anything else is routed through the unmodelled
`encode_complex` fallback (`PyStr.encX`). -/
def dumps (v : Value) : PyStr :=
  if jsonOk v then PyStr.enc v else PyStr.encX

/-- Modelled from the spec: `simplejson.loads`.  The decoder accepts exactly
what the encoder produces (spec section 6): decoding an encoded JSON-fragment
payload returns the original value (the JSON round trip is the identity on
that fragment); decoding an `encode_complex` payload succeeds but its result
is outside the modelled fragment (represented by an unspecified plain value);
the grammar of raw literal strings is outside the modelled codec, and a raised
decode error is represented by `Option.none` (spec section 7: decode failures
propagate to the caller). -/
def loads : PyStr → Option Value
  | PyStr.lit _ => Option.none
  | PyStr.enc v => some v
  | PyStr.encX => some Value.vnone

/-- Modelled from the spec: Python `str(val)`, used for string-serializable
columns.  Only its behavior on opaque objects (their string form, e.g. an
`ObjectId`'s hex text) and on strings themselves is ever observed. -/
def pyToStr : Value → String
  | Value.vobj s => s
  | Value.vstr (PyStr.lit s) => s
  | _ => ""

/-- A row (`pd.Series`): a total function from column names to values.
Missing columns are the caller's responsibility (spec section 6), so the
function is total. -/
abbrev Row := String → Value

/-- Writing one cell of a row (`row[column] = v`) or one column of a
dataframe, producing the updated mapping. -/
def updateFn {β : Type} (f : String → β) (c : String) (v : β) : String → β :=
  fun c' => if c' = c then v else f c'

/-- Python `dict` access `T[c]` on an association list: the tag of column `c`,
if present. -/
def lookupTag {β : Type} (c : String) : List (String × β) → Option β
  | [] => Option.none
  | (k, t) :: rest => if c = k then some t else lookupTag c rest

/-- The body of the `serialize_columns` loop for one column: JSON-serializable
tags JSON-encode non-null values, string-serializable tags stringify non-null
values, every other tag (and every null value) is a no-op. -/
def serializeOne (column_type : String) (val : Value) : Value :=
  if column_type ∈ JSON_SERIALIZABLE_COLUMN_TYPES then
    match val with
    | Value.vnone => val
    | _ => Value.vstr (dumps val)
  else if column_type ∈ STRING_SERIALIZABLE_COLUMN_TYPES then
    match val with
    | Value.vnone => val
    | _ => Value.vstr (PyStr.lit (pyToStr val))
  else val

/-- `serialize_columns(row, column_types)`: iterate over the column-type table
and substitute each column's value in place (writing back an unchanged value
is indistinguishable from not writing). -/
def serialize_columns (row : Row) : List (String × String) → Row
  | [] => row
  | (column, column_type) :: rest =>
      serialize_columns (updateFn row column (serializeOne column_type (row column))) rest

/-- The body of the `deserialize_columns` loop for one column: non-JSON tags
are skipped (`continue`); under a JSON tag a string value is decoded with
`simplejson.loads` (`Option.none` = the raised decode error), an `ndarray` is
turned into a plain list exactly when the tag is `list.__name__`, and any
other value (null included) is left unchanged. -/
def deserializeOne (column_type : String) (val : Value) : Option Value :=
  if column_type ∉ JSON_SERIALIZABLE_COLUMN_TYPES then some val
  else
    match val with
    | Value.vstr p => loads p
    | Value.vndarray xs =>
        if column_type = "list" then some (Value.vlist xs) else some val
    | _ => some val

/-- `deserialize_columns(row, column_types)`: iterate over the column-type
table; a decode error raised by `simplejson.loads` aborts the whole call
(`Option.none`), otherwise the updated row is returned. -/
def deserialize_columns (row : Row) : List (String × String) → Option Row
  | [] => some row
  | (column, column_type) :: rest =>
      match deserializeOne column_type (row column) with
      | some v => deserialize_columns (updateFn row column v) rest
      | Option.none => Option.none

/-- `should_serialize_pandas(column_types)`: false for an empty table, else a
scan for a tag in `JSON_SERIALIZABLE_COLUMN_TYPES` or
`STRING_SERIALIZABLE_COLUMN_TYPES` with early return. -/
def should_serialize_pandas (column_types : List (String × String)) : Bool :=
  match column_types with
  | [] => false
  | _ :: _ =>
      column_types.any fun p =>
        decide (p.2 ∈ JSON_SERIALIZABLE_COLUMN_TYPES) ||
        decide (p.2 ∈ STRING_SERIALIZABLE_COLUMN_TYPES)

/-- `should_deserialize_pandas(column_types)`: false for an empty table, else
a scan for a tag in `JSON_SERIALIZABLE_COLUMN_TYPES` with early return. -/
def should_deserialize_pandas (column_types : List (String × String)) : Bool :=
  match column_types with
  | [] => false
  | _ :: _ =>
      column_types.any fun p => decide (p.2 ∈ JSON_SERIALIZABLE_COLUMN_TYPES)

/-- A YAML document produced by `yaml.dump`: either plain data that
`yaml.safe_load` accepts, or a document carrying python-specific tags that
`yaml.safe_load` rejects.  Modelled from the spec: the YAML codec is an
opaque external collaborator. -/
inductive YamlDoc : Type where
  | plain : Value → YamlDoc
  | tagged : Value → YamlDoc

/-- Modelled from the spec: the fragment of values `yaml.dump` represents
without python-specific tags; in this model the plain-data fragment coincides
with the pure JSON fragment. -/
def yamlPlain : Value → Bool := jsonOk

/-- Modelled from the spec: `yaml.dump` of a value (it succeeds on plain data
and on python objects alike, tagging the latter; a raised dump error would be
`Option.none`). -/
def yaml_dump (v : Value) : Option YamlDoc :=
  if yamlPlain v then some (YamlDoc.plain v) else some (YamlDoc.tagged v)

/-- Modelled from the spec: `yaml.safe_load`, which reconstructs plain data
and raises on documents carrying constructs it does not accept
(`Option.none` = the raised error). -/
def yaml_safe_load : YamlDoc → Option Value
  | YamlDoc.plain v => some v
  | YamlDoc.tagged _ => Option.none

/-- `is_yaml_serializable(key, value)`: dump `dict(key=value)` (note: the
mapping is built with the literal keyword `key`, the `key` argument is not
used), reload it with `yaml.safe_load`, and return `True`; any exception in
either step is caught and yields `False`. -/
def is_yaml_serializable (key : String) (value : Value) : Bool :=
  match yaml_dump (Value.vdict (EntryList.cons "key" value EntryList.nil)) with
  | Option.none => false
  | some s =>
      match yaml_safe_load s with
      | Option.none => false
      | some _ => true

/-- A pandas dataframe as the Table Partitioner observes it: only its deep
memory footprint (`df.memory_usage(deep=True).sum()`, in bytes) is consulted. -/
structure SizedDF : Type where
  total_bytes : Nat

/-- A dask dataframe: the underlying data plus its partition count. -/
structure DaskDF : Type where
  df : SizedDF
  npartitions : Nat

/-- `dd.from_pandas(df, npartitions=1)`. -/
def dd_from_pandas (df : SizedDF) (npartitions : Nat) : DaskDF :=
  { df := df, npartitions := npartitions }

/-- `ddf.memory_usage(deep=True).sum().compute()`: the deep byte footprint of
the data. -/
def memory_usage_sum (ddf : DaskDF) : Nat := ddf.df.total_bytes

/-- `ddf.repartition(npartitions=n)`. -/
def repartition (ddf : DaskDF) (npartitions : Nat) : DaskDF :=
  { df := ddf.df, npartitions := npartitions }

/-- `dask_from_pandas(df)`: materialize with one partition, estimate the byte
footprint, and repartition to `1 + total_bytes // MAX_PARTITION_BYTE_SIZE`. -/
def dask_from_pandas (df : SizedDF) : DaskDF :=
  let ddf := dd_from_pandas df 1
  let npartitions := 1 + memory_usage_sum ddf / MAX_PARTITION_BYTE_SIZE
  repartition ddf npartitions

/-- A dataframe column (`pd.Series` viewed column-wise, or a polars column):
a dtype name and the column's values. -/
structure Series : Type where
  dtype : String
  values : List Value

/-- A pandas dataframe as the Column Caster observes it: its columns. -/
abbrev PandasDF := String → Series

/-- A polars dataframe as the Column Caster observes it: its columns. -/
abbrev PolarsDF := String → Series

/-- The numeric worth of a decimal digit character, if it is one. -/
def digitVal? (ch : Char) : Option Nat :=
  if ch.isDigit then some (ch.toNat - 48) else Option.none

/-- Accumulating decimal parse of a character list; fails on any non-digit. -/
def parseNatFrom (acc : Nat) : List Char → Option Nat
  | [] => some acc
  | ch :: rest =>
      match digitVal? ch with
      | some d => parseNatFrom (acc * 10 + d) rest
      | Option.none => Option.none

/-- Decimal integer parse of a text, with an optional leading minus sign;
fails on the empty text and on any non-numeric text. -/
def parseInt? (s : String) : Option Int :=
  match s.data with
  | [] => Option.none
  | '-' :: rest =>
      match rest with
      | [] => Option.none
      | _ => (parseNatFrom 0 rest).map (fun n => -(n : Int))
  | l => (parseNatFrom 0 l).map (fun n => (n : Int))

/-- Modelled from the spec: coercion of one value to a numeric dtype, the
per-value content of `Series.astype` / `polars.DataFrame.cast`.  Integers and
booleans coerce, numeric text parses, anything else (null included) raises,
represented by `Option.none`.  Floating-point payloads are outside the model,
so the target dtype name only selects the resulting dtype, not the value
representation. -/
def castValue (target : String) (v : Value) : Option Value :=
  match v with
  | Value.vint n => some (Value.vint n)
  | Value.vbool b => some (Value.vint (if b then 1 else 0))
  | Value.vstr (PyStr.lit s) => (parseInt? s).map Value.vint
  | _ => Option.none

/-- Modelled from the spec: `df[column].astype(column_type)` — re-type every
value of the column, raising (`Option.none`) if any value does not coerce. -/
def astype (s : Series) (column_type : String) : Option Series :=
  (s.values.mapM (castValue column_type)).map fun vs =>
    { dtype := column_type, values := vs }

/-- The body of the `cast_column_types` loop for one column: for a tag in
`CAST_TYPE_COLUMN_TYPES` attempt `astype`; the `except` clause prints the
traceback and leaves the column in its prior state. -/
def castOne (column_type : String) (s : Series) : Series :=
  if column_type ∈ CAST_TYPE_COLUMN_TYPES then
    match astype s column_type with
    | some s2 => s2
    | Option.none => s
  else s

/-- `cast_column_types(df, column_types)`: per-column `astype` with a broad
`except` that keeps the failing column unchanged and continues. -/
def cast_column_types (df : PandasDF) : List (String × String) → PandasDF
  | [] => df
  | (column, column_type) :: rest =>
      cast_column_types (updateFn df column (castOne column_type (df column))) rest

/-- The dtype-name spelling of a polars dtype object. -/
def polarsDtypeName : PolarsType → String
  | PolarsType.Float64 => "Float64"
  | PolarsType.Int64 => "Int64"

/-- Modelled from the spec: `df.cast({column: target})` restricted to one
column — re-type every value, raising (`Option.none`) if any value does not
coerce. -/
def polars_cast (s : Series) (target : PolarsType) : Option Series :=
  (s.values.mapM (castValue (polarsDtypeName target))).map fun vs =>
    { dtype := polarsDtypeName target, values := vs }

/-- The body of the `cast_column_types_polars` loop for one column: for a tag
that is a key of `POLARS_CAST_TYPE_COLUMN_TYPES`, attempt the cast with the
mapped dtype object; the `except` clause prints the traceback and keeps the
dataframe unchanged. -/
def castOnePolars (column_type : String) (s : Series) : Series :=
  match lookupTag column_type POLARS_CAST_TYPE_COLUMN_TYPES with
  | some target =>
      match polars_cast s target with
      | some s2 => s2
      | Option.none => s
  | Option.none => s

/-- `cast_column_types_polars(df, column_types)`: per-column `df.cast` with a
broad `except` that keeps the dataframe unchanged for that column and
continues. -/
def cast_column_types_polars (df : PolarsDF) : List (String × String) → PolarsDF
  | [] => df
  | (column, column_type) :: rest =>
      cast_column_types_polars
        (updateFn df column (castOnePolars column_type (df column))) rest

/-- The non-recursive test used by the round-trip property: a non-null `dict`
or `list` whose members are JSON-primitive values (`None`, `bool`, `int`,
`str`). -/
def jsonPrim : Value → Bool
  | Value.vnone => true
  | Value.vbool _ => true
  | Value.vint _ => true
  | Value.vstr _ => true
  | _ => false

/-- Every element of a value list is a JSON primitive. -/
def primList : ValueList → Bool
  | ValueList.nil => true
  | ValueList.cons v tl => jsonPrim v && primList tl

/-- Every value of a dict's entries is a JSON primitive. -/
def primEntries : EntryList → Bool
  | EntryList.nil => true
  | EntryList.cons _ v tl => jsonPrim v && primEntries tl

/-- A non-null `dict` or `list` of JSON-primitive values: the values the
round-trip property quantifies over. -/
def jsonPrimContainer : Value → Bool
  | Value.vdict kvs => primEntries kvs
  | Value.vlist xs => primList xs
  | _ => false

theorem updateFn_apply_eq {β : Type} (f : String → β) (c : String) (v : β) :
    updateFn f c v c = v := by
  simp [updateFn]

theorem updateFn_apply_ne {β : Type} (f : String → β) (c c' : String) (v : β)
    (h : c' ≠ c) : updateFn f c v c' = f c' := by
  simp [updateFn, h]

theorem updateFn_self (f : String → Value) (c : String) :
    updateFn f c (f c) = f := by
  funext c'
  by_cases h : c' = c
  · subst h; simp [updateFn]
  · simp [updateFn, h]

theorem lookupTag_eq_none_of_not_mem {β : Type} (c : String)
    (T : List (String × β)) (h : c ∉ T.map Prod.fst) :
    lookupTag c T = Option.none := by
  induction T with
  | nil => rfl
  | cons p rest ih =>
    rw [List.map_cons, List.mem_cons] at h
    push_neg at h
    simp [lookupTag, h.1, ih h.2]

theorem mem_map_fst_of_lookupTag_some {β : Type} (c : String) (t : β)
    (T : List (String × β)) (h : lookupTag c T = some t) :
    c ∈ T.map Prod.fst := by
  induction T with
  | nil => simp [lookupTag] at h
  | cons p rest ih =>
    rw [List.map_cons, List.mem_cons]
    by_cases hc : c = p.1
    · exact Or.inl hc
    · right
      apply ih
      obtain ⟨k, t'⟩ := p
      simpa [lookupTag, hc] using h

/-- Pointwise characterization of a per-column update loop over a column-type
table with distinct keys: column `c` ends up holding `step` of its original
value when `c` is in the table, and is untouched otherwise. -/
theorem fold_apply {β : Type} (step : String → β → β)
    (F : (String → β) → List (String × String) → (String → β))
    (hnil : ∀ f, F f [] = f)
    (hcons : ∀ f c t rest, F f ((c, t) :: rest) = F (updateFn f c (step t (f c))) rest) :
    ∀ (T : List (String × String)) (f : String → β) (c : String),
      (T.map Prod.fst).Nodup →
      F f T c = (match lookupTag c T with
                 | some t => step t (f c)
                 | Option.none => f c) := by
  intro T
  induction T with
  | nil =>
    intro f c _
    rw [hnil]
    rfl
  | cons p rest ih =>
    intro f c hnd
    obtain ⟨c₀, t₀⟩ := p
    rw [List.map_cons, List.nodup_cons] at hnd
    obtain ⟨hni, hnd'⟩ := hnd
    rw [hcons, ih _ _ hnd']
    by_cases hc : c = c₀
    · subst hc
      rw [lookupTag_eq_none_of_not_mem _ _ hni]
      simp [lookupTag, updateFn]
    · simp [lookupTag, hc, updateFn_apply_ne _ _ _ _ hc]

theorem serializeOne_vnone (t : String) :
    serializeOne t Value.vnone = Value.vnone := by
  unfold serializeOne
  by_cases h1 : t ∈ JSON_SERIALIZABLE_COLUMN_TYPES
  · simp [h1]
  · by_cases h2 : t ∈ STRING_SERIALIZABLE_COLUMN_TYPES <;> simp [h1, h2]

theorem deserializeOne_vnone (t : String) :
    deserializeOne t Value.vnone = some Value.vnone := by
  unfold deserializeOne
  by_cases h1 : t ∈ JSON_SERIALIZABLE_COLUMN_TYPES <;> simp [h1]

theorem deserializeOne_of_not_mem (t : String) (v : Value)
    (h : t ∉ JSON_SERIALIZABLE_COLUMN_TYPES) :
    deserializeOne t v = some v := by
  simp [deserializeOne, h]

theorem loads_dumps_isSome (v : Value) : (loads (dumps v)).isSome = true := by
  unfold dumps
  split <;> rfl

theorem loads_dumps_of_jsonOk (v : Value) (h : jsonOk v = true) :
    loads (dumps v) = some v := by
  simp [dumps, h, loads]

theorem deserializeOne_serializeOne_isSome (t : String) (v : Value) :
    (deserializeOne t (serializeOne t v)).isSome = true := by
  by_cases h1 : t ∈ JSON_SERIALIZABLE_COLUMN_TYPES
  · cases v <;> simp [serializeOne, deserializeOne, h1, loads_dumps_isSome]
  · simp [deserializeOne_of_not_mem _ _ h1]

theorem jsonOk_of_jsonPrim (v : Value) (h : jsonPrim v = true) :
    jsonOk v = true := by
  cases v with
  | vnone => simp [jsonOk]
  | vbool b => simp [jsonOk]
  | vint n => simp [jsonOk]
  | vstr s => simp [jsonOk]
  | vobj s => simp [jsonPrim] at h
  | vdict kvs => simp [jsonPrim] at h
  | vlist xs => simp [jsonPrim] at h
  | vndarray xs => simp [jsonPrim] at h

theorem jsonOkList_of_primList : ∀ (xs : ValueList), primList xs = true →
    jsonOkList xs = true
  | ValueList.nil, _ => by simp [jsonOkList]
  | ValueList.cons v tl, h => by
      simp only [primList, Bool.and_eq_true] at h
      simp [jsonOkList, jsonOk_of_jsonPrim v h.1, jsonOkList_of_primList tl h.2]

theorem jsonOkEntries_of_primEntries : ∀ (kvs : EntryList),
    primEntries kvs = true → jsonOkEntries kvs = true
  | EntryList.nil, _ => by simp [jsonOkEntries]
  | EntryList.cons k v tl, h => by
      simp only [primEntries, Bool.and_eq_true] at h
      simp [jsonOkEntries, jsonOk_of_jsonPrim v h.1,
        jsonOkEntries_of_primEntries tl h.2]

theorem jsonOk_of_primContainer (v : Value) (h : jsonPrimContainer v = true) :
    jsonOk v = true := by
  cases v with
  | vdict kvs =>
      simp only [jsonPrimContainer] at h
      simp [jsonOk, jsonOkEntries_of_primEntries kvs h]
  | vlist xs =>
      simp only [jsonPrimContainer] at h
      simp [jsonOk, jsonOkList_of_primList xs h]
  | vnone => simp [jsonPrimContainer] at h
  | vbool b => simp [jsonPrimContainer] at h
  | vint n => simp [jsonPrimContainer] at h
  | vstr s => simp [jsonPrimContainer] at h
  | vobj s => simp [jsonPrimContainer] at h
  | vndarray xs => simp [jsonPrimContainer] at h

theorem serializeOne_primContainer (t : String) (v : Value)
    (h1 : t ∈ JSON_SERIALIZABLE_COLUMN_TYPES) (h2 : jsonPrimContainer v = true) :
    serializeOne t v = Value.vstr (PyStr.enc v) := by
  have hok := jsonOk_of_primContainer v h2
  cases v with
  | vdict kvs => simp [serializeOne, h1, dumps, hok]
  | vlist xs => simp [serializeOne, h1, dumps, hok]
  | vnone => simp [jsonPrimContainer] at h2
  | vbool b => simp [jsonPrimContainer] at h2
  | vint n => simp [jsonPrimContainer] at h2
  | vstr s => simp [jsonPrimContainer] at h2
  | vobj s => simp [jsonPrimContainer] at h2
  | vndarray xs => simp [jsonPrimContainer] at h2

theorem deserializeOne_enc (t : String) (v : Value)
    (h1 : t ∈ JSON_SERIALIZABLE_COLUMN_TYPES) :
    deserializeOne t (Value.vstr (PyStr.enc v)) = some v := by
  simp [deserializeOne, h1, loads]

/-- When every column's per-column step succeeds on the row's original value,
`deserialize_columns` does not abort (keys assumed distinct). -/
theorem deserialize_columns_isSome :
    ∀ (T : List (String × String)) (row : Row),
      (T.map Prod.fst).Nodup →
      (∀ c t, lookupTag c T = some t → (deserializeOne t (row c)).isSome = true) →
      (deserialize_columns row T).isSome = true := by
  intro T
  induction T with
  | nil => intro row _ _; rfl
  | cons p rest ih =>
    intro row hnd hok
    obtain ⟨c₀, t₀⟩ := p
    rw [List.map_cons, List.nodup_cons] at hnd
    obtain ⟨hni, hnd'⟩ := hnd
    have h0 : (deserializeOne t₀ (row c₀)).isSome = true := by
      apply hok c₀ t₀
      simp [lookupTag]
    cases hw : deserializeOne t₀ (row c₀) with
    | none => rw [hw] at h0; cases h0
    | some w =>
      show (deserialize_columns row ((c₀, t₀) :: rest)).isSome = true
      rw [deserialize_columns, hw]
      apply ih _ hnd'
      intro c t hlk
      have hc : c ≠ c₀ := by
        intro h
        subst h
        rw [lookupTag_eq_none_of_not_mem c rest
          (fun hm => hni (by simpa using hm))] at hlk
        cases hlk
      rw [updateFn_apply_ne _ _ _ _ hc]
      apply hok c t
      simp [lookupTag, hc, hlk]

/-- Pointwise characterization of a successful `deserialize_columns` run over
a table with distinct keys: a column outside the table is untouched, and a
column with tag `t` holds the (successful) result of the per-column step on
its original value. -/
theorem deserialize_columns_some_apply :
    ∀ (T : List (String × String)) (row R' : Row),
      (T.map Prod.fst).Nodup →
      deserialize_columns row T = some R' →
      (∀ c, lookupTag c T = Option.none → R' c = row c) ∧
      (∀ c t, lookupTag c T = some t →
        ∃ w, deserializeOne t (row c) = some w ∧ R' c = w) := by
  intro T
  induction T with
  | nil =>
    intro row R' _ h
    rw [deserialize_columns] at h
    injection h with h
    subst h
    refine ⟨fun c _ => rfl, fun c t hlk => ?_⟩
    cases hlk
  | cons p rest ih =>
    intro row R' hnd h
    obtain ⟨c₀, t₀⟩ := p
    rw [List.map_cons, List.nodup_cons] at hnd
    obtain ⟨hni, hnd'⟩ := hnd
    rw [deserialize_columns] at h
    cases hw : deserializeOne t₀ (row c₀) with
    | none => rw [hw] at h; cases h
    | some w =>
      rw [hw] at h
      obtain ⟨ihn, ihs⟩ := ih _ _ hnd' h
      constructor
      · intro c hlk
        rw [lookupTag] at hlk
        by_cases hc : c = c₀
        · rw [if_pos hc] at hlk; cases hlk
        · rw [if_neg hc] at hlk
          rw [ihn c hlk, updateFn_apply_ne _ _ _ _ hc]
      · intro c t hlk
        rw [lookupTag] at hlk
        by_cases hc : c = c₀
        · rw [if_pos hc] at hlk
          injection hlk with hlk
          subst hc
          subst hlk
          refine ⟨w, hw, ?_⟩
          have hrest : lookupTag c rest = Option.none :=
            lookupTag_eq_none_of_not_mem c rest
              (fun hm => hni (by simpa using hm))
          rw [ihn c hrest, updateFn_apply_eq]
        · rw [if_neg hc] at hlk
          obtain ⟨w', hw', hR⟩ := ihs c t hlk
          rw [updateFn_apply_ne _ _ _ _ hc] at hw'
          exact ⟨w', hw', hR⟩

/-- A null cell is never written by `serialize_columns`: every loop iteration
that could touch it sees `None` and skips (no distinct-keys assumption
needed). -/
theorem serialize_columns_null :
    ∀ (T : List (String × String)) (row : Row) (c : String),
      row c = Value.vnone → serialize_columns row T c = Value.vnone := by
  intro T
  induction T with
  | nil => intro row c h; exact h
  | cons p rest ih =>
    intro row c h
    obtain ⟨c₀, t₀⟩ := p
    rw [serialize_columns]
    apply ih
    by_cases hc : c = c₀
    · subst hc
      rw [updateFn_apply_eq, h, serializeOne_vnone]
    · rw [updateFn_apply_ne _ _ _ _ hc]
      exact h

/-- A null cell is never written by `deserialize_columns` either. -/
theorem deserialize_columns_null :
    ∀ (T : List (String × String)) (row R' : Row) (c : String),
      row c = Value.vnone → deserialize_columns row T = some R' →
      R' c = Value.vnone := by
  intro T
  induction T with
  | nil =>
    intro row R' c h hd
    rw [deserialize_columns] at hd
    injection hd with hd
    subst hd
    exact h
  | cons p rest ih =>
    intro row R' c h hd
    obtain ⟨c₀, t₀⟩ := p
    rw [deserialize_columns] at hd
    cases hw : deserializeOne t₀ (row c₀) with
    | none => rw [hw] at hd; cases hd
    | some w =>
      rw [hw] at hd
      refine ih _ _ _ ?_ hd
      by_cases hc : c = c₀
      · subst hc
        rw [updateFn_apply_eq]
        rw [h, deserializeOne_vnone] at hw
        injection hw with hw
        exact hw.symm
      · rw [updateFn_apply_ne _ _ _ _ hc]
        exact h


/-- C3: `should_serialize_pandas(T)` returns true if and only if `T` is
non-empty and at least one tag in `T` is in the JSON-serializable set
(`dict`, `list`) or the string-serializable set (`ObjectId`); equivalently
it returns false iff `T` is empty or every tag lies outside that union. -/
theorem c3_should_serialize_iff (T : List (String × String)) :
    should_serialize_pandas T = true ↔
      (T ≠ [] ∧ ∃ p ∈ T, p.2 = "dict" ∨ p.2 = "list" ∨ p.2 = "ObjectId") := by
  cases T with
  | nil => simp [should_serialize_pandas]
  | cons q rest =>
    simp [should_serialize_pandas, List.any_eq_true,
      JSON_SERIALIZABLE_COLUMN_TYPES, STRING_SERIALIZABLE_COLUMN_TYPES,
      or_assoc]

/-- C4: `should_deserialize_pandas(T)` returns true if and only if `T` is
non-empty and at least one tag in `T` is in the JSON-serializable set
(`dict`, `list`); a string-serializable tag such as `ObjectId` alone never
makes it true, since the scan consults only `JSON_SERIALIZABLE_COLUMN_TYPES`. -/
theorem c4_should_deserialize_iff (T : List (String × String)) :
    should_deserialize_pandas T = true ↔
      (T ≠ [] ∧ ∃ p ∈ T, p.2 = "dict" ∨ p.2 = "list") := by
  cases T with
  | nil => simp [should_deserialize_pandas]
  | cons q rest =>
    simp [should_deserialize_pandas, List.any_eq_true,
      JSON_SERIALIZABLE_COLUMN_TYPES]

/-- C9: whenever `should_deserialize_pandas` deems transcoding necessary,
`should_serialize_pandas` does too, because the JSON-serializable tag set is
one of the two disjuncts the serialize predicate scans for. -/
theorem c9_deserialize_necessity_implies_serialize_necessity
    (T : List (String × String))
    (h : should_deserialize_pandas T = true) :
    should_serialize_pandas T = true := by
  cases T with
  | nil => cases h
  | cons q rest =>
    rw [should_deserialize_pandas] at h
    rw [should_serialize_pandas]
    rw [List.any_eq_true] at h ⊢
    obtain ⟨p, hp, hmem⟩ := h
    refine ⟨p, hp, ?_⟩
    rw [Bool.or_eq_true]
    exact Or.inl hmem

/-- Witness for C9 at the concrete table `{a: dict}`. -/
theorem c9_deserialize_necessity_implies_serialize_necessity_witness :
    should_serialize_pandas [("a", "dict")] = true :=
  c9_deserialize_necessity_implies_serialize_necessity [("a", "dict")] (by decide)

/-- C5: `dask_from_pandas` repartitions to exactly
`1 + total_bytes / MAX_PARTITION_BYTE_SIZE` partitions; in particular a
0-byte table gets 1 partition, a `MAX_PARTITION_BYTE_SIZE + 1`-byte table
gets 2, a `2 * MAX_PARTITION_BYTE_SIZE`-byte table gets 3, and a table whose
size is positive yet within the 100 MiB budget can still receive 2
partitions (at exactly the budget). -/
theorem c5_partition_count :
    (∀ df : SizedDF,
      (dask_from_pandas df).npartitions =
        1 + df.total_bytes / MAX_PARTITION_BYTE_SIZE) ∧
    (dask_from_pandas ⟨0⟩).npartitions = 1 ∧
    (dask_from_pandas ⟨MAX_PARTITION_BYTE_SIZE + 1⟩).npartitions = 2 ∧
    (dask_from_pandas ⟨2 * MAX_PARTITION_BYTE_SIZE⟩).npartitions = 3 ∧
    ∃ b : Nat, 0 < b ∧ b ≤ MAX_PARTITION_BYTE_SIZE ∧
      (dask_from_pandas ⟨b⟩).npartitions = 2 := by
  refine ⟨fun df => rfl, by decide, by decide, by decide,
    ⟨MAX_PARTITION_BYTE_SIZE, by decide, le_refl _, by decide⟩⟩

/-- C7: `is_yaml_serializable(key, value)` encodes a one-entry mapping
holding `value` with `yaml.dump`, decodes the document back with
`yaml.safe_load`, and returns true exactly when both steps succeed; any
failure in either step is absorbed into `false` (the function is total, so
no exception ever reaches the caller). -/
theorem c7_yaml_probe_iff (key : String) (value : Value) :
    is_yaml_serializable key value = true ↔
      ∃ d, yaml_dump (Value.vdict (EntryList.cons "key" value EntryList.nil)) =
        some d ∧ (yaml_safe_load d).isSome = true := by
  by_cases hp :
      yamlPlain (Value.vdict (EntryList.cons "key" value EntryList.nil)) = true
  · simp [is_yaml_serializable, yaml_dump, hp, yaml_safe_load]
  · rw [Bool.not_eq_true] at hp
    simp [is_yaml_serializable, yaml_dump, hp, yaml_safe_load]

/-- C10: the probe's result depends only on the value: the source builds the
probed mapping with the literal keyword `key` (`dict(key=value)`) and never
reads its `key` argument, so any two keys give the same answer. -/
theorem c10_yaml_probe_ignores_key (v : Value) (k1 k2 : String) :
    is_yaml_serializable k1 v = is_yaml_serializable k2 v := rfl

theorem deserializeOne_vstr (t : String) (p : PyStr)
    (h : t ∈ JSON_SERIALIZABLE_COLUMN_TYPES) :
    deserializeOne t (Value.vstr p) = loads p := by
  simp [deserializeOne, h]

theorem deserializeOne_vndarray (t : String) (xs : ValueList)
    (h : t ∈ JSON_SERIALIZABLE_COLUMN_TYPES) :
    deserializeOne t (Value.vndarray xs) =
      (if t = "list" then some (Value.vlist xs)
       else some (Value.vndarray xs)) := by
  simp [deserializeOne, h]

theorem deserializeOne_passthrough (t : String) (v : Value)
    (hs : ∀ p, v ≠ Value.vstr p) (hn : ∀ xs, v ≠ Value.vndarray xs) :
    deserializeOne t v = some v := by
  by_cases hmem : t ∈ JSON_SERIALIZABLE_COLUMN_TYPES
  · cases v with
    | vstr p => exact absurd rfl (hs p)
    | vndarray xs => exact absurd rfl (hn xs)
    | vnone => simp [deserializeOne, hmem]
    | vbool b => simp [deserializeOne, hmem]
    | vint n => simp [deserializeOne, hmem]
    | vobj s => simp [deserializeOne, hmem]
    | vdict kvs => simp [deserializeOne, hmem]
    | vlist xs => simp [deserializeOne, hmem]
  · exact deserializeOne_of_not_mem t v hmem

/-- C2: a null value is passed through untouched by both `serialize_columns`
and `deserialize_columns`, whatever the column's tag: it is never encoded or
decoded; in particular the row `{c: None}` under the table `{c: dict}` is
returned unchanged by both operations. -/
theorem c2_null_values_untouched (R : Row) (T : List (String × String))
    (c : String) (h : R c = Value.vnone) :
    serialize_columns R T c = Value.vnone ∧
    (∀ R', deserialize_columns R T = some R' → R' c = Value.vnone) ∧
    serialize_columns (fun _ => Value.vnone) [("c", "dict")] =
      (fun _ => Value.vnone) ∧
    deserialize_columns (fun _ => Value.vnone) [("c", "dict")] =
      some (fun _ => Value.vnone) := by
  refine ⟨serialize_columns_null T R c h,
    fun R' hd => deserialize_columns_null T R R' c h hd, ?_, ?_⟩
  · funext c'
    show updateFn (fun _ => Value.vnone) "c"
      (serializeOne "dict" Value.vnone) c' = Value.vnone
    rw [serializeOne_vnone]
    by_cases h' : c' = "c" <;> simp [updateFn, h']
  · have hu : updateFn (fun _ => Value.vnone) "c" Value.vnone =
        (fun _ => Value.vnone) := by
      funext c'
      by_cases h' : c' = "c" <;> simp [updateFn, h']
    simp only [deserialize_columns, deserializeOne_vnone]
    rw [hu]

/-- Witness for C2 at the concrete row `{c: None}` and table `{c: dict}`. -/
theorem c2_null_values_untouched_witness :
    serialize_columns (fun _ => Value.vnone) [("c", "dict")] "c" =
      Value.vnone ∧
    (∀ R', deserialize_columns (fun _ => Value.vnone) [("c", "dict")] =
      some R' → R' "c" = Value.vnone) ∧
    serialize_columns (fun _ => Value.vnone) [("c", "dict")] =
      (fun _ => Value.vnone) ∧
    deserialize_columns (fun _ => Value.vnone) [("c", "dict")] =
      some (fun _ => Value.vnone) :=
  c2_null_values_untouched (fun _ => Value.vnone) [("c", "dict")] "c" rfl

/-- C6: neither `cast_column_types` nor `cast_column_types_polars` lets a
per-column cast failure escape: both are total functions that always return
the table; a column whose cast raises (for example a non-numeric string under
a numeric-castable tag) is left exactly as it was, a castable column whose
cast succeeds is re-typed, and columns with non-castable or absent tags are
untouched (the printed traceback is a side effect outside the model). -/
theorem c6_cast_failure_tolerated (df : PandasDF) (dfp : PolarsDF)
    (T : List (String × String)) (c : String)
    (hnd : (T.map Prod.fst).Nodup) :
    (∀ t, lookupTag c T = some t → t ∈ CAST_TYPE_COLUMN_TYPES →
        astype (df c) t = Option.none → cast_column_types df T c = df c) ∧
    (∀ t s2, lookupTag c T = some t → t ∈ CAST_TYPE_COLUMN_TYPES →
        astype (df c) t = some s2 → cast_column_types df T c = s2) ∧
    (∀ t, lookupTag c T = some t → t ∉ CAST_TYPE_COLUMN_TYPES →
        cast_column_types df T c = df c) ∧
    (lookupTag c T = Option.none → cast_column_types df T c = df c) ∧
    (∀ t target, lookupTag c T = some t →
        lookupTag t POLARS_CAST_TYPE_COLUMN_TYPES = some target →
        polars_cast (dfp c) target = Option.none →
        cast_column_types_polars dfp T c = dfp c) ∧
    (∀ t target s2, lookupTag c T = some t →
        lookupTag t POLARS_CAST_TYPE_COLUMN_TYPES = some target →
        polars_cast (dfp c) target = some s2 →
        cast_column_types_polars dfp T c = s2) ∧
    (∀ t, lookupTag c T = some t →
        lookupTag t POLARS_CAST_TYPE_COLUMN_TYPES = Option.none →
        cast_column_types_polars dfp T c = dfp c) ∧
    (lookupTag c T = Option.none → cast_column_types_polars dfp T c = dfp c) := by
  have hp := fold_apply castOne cast_column_types (fun _ => rfl)
    (fun _ _ _ _ => rfl) T df c hnd
  have hq := fold_apply castOnePolars cast_column_types_polars (fun _ => rfl)
    (fun _ _ _ _ => rfl) T dfp c hnd
  refine ⟨?_, ?_, ?_, ?_, ?_, ?_, ?_, ?_⟩
  · intro t hlk hmem hfail
    rw [hp, hlk]
    simp [castOne, hmem, hfail]
  · intro t s2 hlk hmem hok
    rw [hp, hlk]
    simp [castOne, hmem, hok]
  · intro t hlk hmem
    rw [hp, hlk]
    simp [castOne, hmem]
  · intro hlk
    rw [hp, hlk]
  · intro t target hlk hpl hfail
    rw [hq, hlk]
    simp [castOnePolars, hpl, hfail]
  · intro t target s2 hlk hpl hok
    rw [hq, hlk]
    simp [castOnePolars, hpl, hok]
  · intro t hlk hpl
    rw [hq, hlk]
    simp [castOnePolars, hpl]
  · intro hlk
    rw [hq, hlk]

/-- Example dataframe for the cast witness: column `a` holds a non-numeric
string (its numeric cast fails), column `b` holds an integer. -/
def dfW : PandasDF := fun c =>
  if c = "a" then { dtype := "object", values := [Value.vstr (PyStr.lit "abc")] }
  else { dtype := "object", values := [Value.vint 7] }

/-- Witness for C6: casting `{a: int64, b: Int64}` over `dfW` leaves the
failing column `a` unchanged while column `b` is re-typed; the polars variant
likewise leaves its failing column unchanged. -/
theorem c6_cast_failure_tolerated_witness :
    cast_column_types dfW [("a", "int64"), ("b", "Int64")] "a" = dfW "a" ∧
    cast_column_types dfW [("a", "int64"), ("b", "Int64")] "b" =
      { dtype := "Int64", values := [Value.vint 7] } ∧
    cast_column_types_polars dfW [("a", "Int64"), ("b", "Float64")] "a" =
      dfW "a" := by
  refine ⟨?_, ?_, ?_⟩
  · exact (c6_cast_failure_tolerated dfW dfW [("a", "int64"), ("b", "Int64")]
      "a" (by decide)).1 "int64" rfl (by decide) rfl
  · exact (c6_cast_failure_tolerated dfW dfW [("a", "int64"), ("b", "Int64")]
      "b" (by decide)).2.1 "Int64"
      { dtype := "Int64", values := [Value.vint 7] } rfl (by decide) rfl
  · exact (c6_cast_failure_tolerated dfW dfW [("a", "Int64"), ("b", "Float64")]
      "a" (by decide)).2.2.2.2.1 "Int64" PolarsType.Int64 rfl rfl rfl

/-- C8: under a successful `deserialize_columns` run over a table with
distinct keys, a string value is decoded with `simplejson.loads` exactly when
the column's tag is JSON-serializable; an `ndarray` value becomes a plain
list exactly when the tag is `list` (under the other JSON tag it is left
alone); values already structured or null are unchanged; and a column whose
tag is not JSON-serializable — in particular the string-serializable
`ObjectId` tag — is never transformed. -/
theorem c8_deserialize_shape (R : Row) (T : List (String × String))
    (c t : String) (hnd : (T.map Prod.fst).Nodup)
    (hlk : lookupTag c T = some t) :
    ∀ R', deserialize_columns R T = some R' →
      (t ∉ JSON_SERIALIZABLE_COLUMN_TYPES → R' c = R c) ∧
      (∀ p, t ∈ JSON_SERIALIZABLE_COLUMN_TYPES → R c = Value.vstr p →
          loads p = some (R' c)) ∧
      (∀ xs, t = "list" → R c = Value.vndarray xs → R' c = Value.vlist xs) ∧
      (∀ xs, t ∈ JSON_SERIALIZABLE_COLUMN_TYPES → t ≠ "list" →
          R c = Value.vndarray xs → R' c = R c) ∧
      (t ∈ JSON_SERIALIZABLE_COLUMN_TYPES →
          (∀ p, R c ≠ Value.vstr p) → (∀ xs, R c ≠ Value.vndarray xs) →
          R' c = R c) := by
  intro R' h
  obtain ⟨ihn, ihs⟩ := deserialize_columns_some_apply T R R' hnd h
  obtain ⟨w, hw, hR⟩ := ihs c t hlk
  refine ⟨?_, ?_, ?_, ?_, ?_⟩
  · intro hmem
    rw [deserializeOne_of_not_mem t (R c) hmem] at hw
    injection hw with hw
    rw [hR, ← hw]
  · intro p hmem hv
    rw [hv, deserializeOne_vstr t p hmem] at hw
    rw [hR, ← hw]
  · intro xs ht hv
    subst ht
    rw [hv, deserializeOne_vndarray "list" xs (by decide), if_pos rfl] at hw
    injection hw with hw
    rw [hR, ← hw]
  · intro xs hmem ht hv
    rw [hv, deserializeOne_vndarray t xs hmem, if_neg ht] at hw
    injection hw with hw
    rw [hR, ← hw, hv]
  · intro _ hs hn
    rw [deserializeOne_passthrough t (R c) hs hn] at hw
    injection hw with hw
    rw [hR, ← hw]

/-- Example row for the deserialize witness: column `s` holds the encoded
text of the integer 3 under a JSON tag, column `o` an opaque identifier. -/
def rowD : Row := fun c =>
  if c = "s" then Value.vstr (PyStr.enc (Value.vint 3))
  else if c = "o" then Value.vobj "64f0"
  else Value.vnone

/-- The row produced by deserializing `rowD` under `{s: dict, o: ObjectId}`. -/
def rowDres : Row :=
  updateFn (updateFn rowD "s" (Value.vint 3)) "o" (Value.vobj "64f0")

/-- Witness for C8: over `rowD`, the string under tag `dict` is decoded and
the `ObjectId` column is untouched. -/
theorem c8_deserialize_shape_witness :
    loads (PyStr.enc (Value.vint 3)) = some (rowDres "s") ∧
    rowDres "o" = rowD "o" := by
  constructor
  · exact ((c8_deserialize_shape rowD [("s", "dict"), ("o", "ObjectId")]
      "s" "dict" (by decide) rfl rowDres rfl).2.1)
      (PyStr.enc (Value.vint 3)) (by decide) rfl
  · exact ((c8_deserialize_shape rowD [("s", "dict"), ("o", "ObjectId")]
      "o" "ObjectId" (by decide) rfl rowDres rfl).1) (by decide)

/-- C1: serializing a row and deserializing the result under the same
column-type table (with distinct keys, as in a Python dict) succeeds, and
returns the original value in every column whose tag is JSON-serializable
(`dict` or `list`) and whose original value is a non-null dict or list of
JSON-primitive values. -/
theorem c1_serialize_deserialize_roundtrip (R : Row)
    (T : List (String × String)) (hnd : (T.map Prod.fst).Nodup) :
    ∃ R', deserialize_columns (serialize_columns R T) T = some R' ∧
      ∀ c t, lookupTag c T = some t → t ∈ JSON_SERIALIZABLE_COLUMN_TYPES →
        jsonPrimContainer (R c) = true → R' c = R c := by
  have hser : ∀ c, serialize_columns R T c =
      (match lookupTag c T with
       | some t => serializeOne t (R c)
       | Option.none => R c) :=
    fun c => fold_apply serializeOne serialize_columns (fun _ => rfl)
      (fun _ _ _ _ => rfl) T R c hnd
  have hsome : (deserialize_columns (serialize_columns R T) T).isSome = true := by
    apply deserialize_columns_isSome T _ hnd
    intro c t hlk
    have hs : serialize_columns R T c = serializeOne t (R c) := by
      rw [hser c, hlk]
    rw [hs]
    exact deserializeOne_serializeOne_isSome t (R c)
  obtain ⟨R', hR'⟩ := Option.isSome_iff_exists.mp hsome
  refine ⟨R', hR', ?_⟩
  intro c t hlk hmem hprim
  obtain ⟨_, ihs⟩ := deserialize_columns_some_apply T _ R' hnd hR'
  obtain ⟨w, hw, hRc⟩ := ihs c t hlk
  have hs : serialize_columns R T c = Value.vstr (PyStr.enc (R c)) := by
    rw [hser c, hlk]
    exact serializeOne_primContainer t (R c) hmem hprim
  rw [hs, deserializeOne_enc t (R c) hmem] at hw
  injection hw with hw
  rw [hRc, ← hw]

/-- Example row for the round-trip witness: column `a` holds the dict
`{k: 1}`, column `b` an opaque identifier object, everything else null. -/
def rowW : Row := fun c =>
  if c = "a" then Value.vdict (EntryList.cons "k" (Value.vint 1) EntryList.nil)
  else if c = "b" then Value.vobj "64f0"
  else Value.vnone

/-- Witness for C1 at the concrete row `rowW` and table
`{a: dict, b: ObjectId}`. -/
theorem c1_serialize_deserialize_roundtrip_witness :
    ∃ R', deserialize_columns
        (serialize_columns rowW [("a", "dict"), ("b", "ObjectId")])
        [("a", "dict"), ("b", "ObjectId")] = some R' ∧
      ∀ c t, lookupTag c [("a", "dict"), ("b", "ObjectId")] = some t →
        t ∈ JSON_SERIALIZABLE_COLUMN_TYPES →
        jsonPrimContainer (rowW c) = true → R' c = rowW c :=
  c1_serialize_deserialize_roundtrip rowW [("a", "dict"), ("b", "ObjectId")]
    (by decide)
